import Mathlib

/-!
# Verification of the QIPs proposal-registry front end

A shallow embedding of the core data transformations of the repository:

* `src/utils/transactionParser.ts` — `extractTransactionsFromMarkdown`,
  `groupTransactionsByMultisig`;
* `src/components/ProposalEditor.tsx` — the transaction-group serialization in
  `handleSubmit`;
* `src/hooks/useCreateQCI.ts` / `src/hooks/useUpdateQCI.ts` — the create/update
  mutation functions, modelled as straight-line effect traces, and the
  status-update mutation's retry policy and optimistic cache protocol;
* the integer branch of `ABIParser.validateInput` (the file
  `src/utils/abiParser.ts` is not part of the source tree given; functions from
  it are modelled from the specification and marked as such).

JavaScript-level semantics that matter to the claims are embedded explicitly:
`JSON.stringify` dropping `undefined`-valued properties, the `x || 'undefined'`
falsy test, the `'k' in x` operator (throwing on primitives), property access
on possibly-missing values, ECMAScript ordinary-object key ordering
(array-index keys first, ascending, then string keys in insertion order), and
thrown exceptions modelled by `Option`/`Except`.
-/

namespace QIPs

/-- JSON values as produced by `JSON.parse` and consumed by `JSON.stringify`.
Numbers are modelled as integers (no claim in scope exercises non-integral or
precision-losing numerics at this layer). -/
inductive Json where
  | null : Json
  | bool (b : Bool) : Json
  | num (n : Int) : Json
  | str (s : String) : Json
  | arr (elems : List Json) : Json
  | obj (fields : List (String × Json)) : Json


/-- `TransactionData` from `src/utils/abiParser.ts` as used throughout the
repository: target chain, contract address, function name, argument values,
and the optional owning multisig address.  The transient `abi` field is not
persisted by `formatTransaction` (spec §3: "transiently, not persisted") and is
omitted. -/
structure TransactionData where
  chain : String
  contractAddress : String
  functionName : String
  args : List Json
  multisig : Option String := none


/-- `MultisigTransactionGroup` from `src/utils/transactionParser.ts`.  The TS
declaration types `multisig` as `string | undefined`, but the parser in
`extractTransactionsFromMarkdown` assigns the raw untyped JSON property
`group.multisig` into it, so the faithful type of the field is an arbitrary
JSON value or `undefined` (here `Option Json`). -/
structure MultisigTransactionGroup where
  multisig : Option Json
  transactions : List TransactionData


/-- A markdown document, abstracted to the parts `extractTransactionsFromMarkdown`
distinguishes: the surrounding content and the (at most one) `## Transactions`
fenced ```json code block matched by the regex
`/##\s*Transactions\s*\n+```json\s*\n([\s\S]+?)\n```/`.
`txSection = none`: no such section; `txSection = some none`: the section is
present but its text is not valid JSON (`JSON.parse` throws);
`txSection = some (some j)`: the section parses to the JSON value `j`. -/
structure Doc where
  body : String
  txSection : Option (Option Json)


/-- Result record of `extractTransactionsFromMarkdown`. -/
structure ExtractResult where
  contentWithoutTransactions : Doc
  transactions : List TransactionData
  transactionGroups : List MultisigTransactionGroup


/-- First own property named `k` of a JS object's field list (JS objects have
unique keys; `JSON.parse` keeps the last duplicate, so generated field lists
here are duplicate-free). `none` models the property being absent
(`undefined`). -/
def jsGet (fields : List (String × Json)) (k : String) : Option Json :=
  (fields.find? (fun p => p.1 = k)).map (fun p => p.2)

/-- The JS `k in x` operator for the property names used by the parser
(`"multisig"`, `"transactions"`): `some b` is the boolean result, `none`
models the `TypeError` thrown when `x` is a primitive or `null`.  Arrays only
own array-index keys and `length`, so these lookups are `false` on arrays. -/
def jsMember (k : String) (j : Json) : Option Bool :=
  match j with
  | .obj fields => some (fields.any (fun p => p.1 = k))
  | .arr _ => some false
  | _ => none

/-- JS property access `x.k`: `none` models the `TypeError` on `null`;
`some none` is `undefined` (absent property, or property access on a boxed
primitive); `some (some v)` the value. -/
def jsProp (j : Json) (k : String) : Option (Option Json) :=
  match j with
  | .null => none
  | .obj fields => some (jsGet fields k)
  | _ => some none

/-- Modelled from the spec: `ABIParser.parseTransaction`
(`src/utils/abiParser.ts` is not among the given sources; spec §4.1:
"canonical JSON round-trip of a Transaction Descriptor; `parseTransaction`
must accept the descriptor shape without requiring the ABI Descriptor to be
present ... only name+args+address+chain are mandatory").  Applied in the
repository always as `parseTransaction (JSON.stringify tx)`; the
stringify/parse round trip is the identity on JSON values, so the model takes
the JSON value directly.  `none` models a thrown parse error on inputs that
are not transaction-descriptor shaped. -/
def parseTransaction (j : Json) : Option TransactionData :=
  match j with
  | .obj fields =>
    match jsGet fields "chain", jsGet fields "contractAddress",
          jsGet fields "functionName", jsGet fields "args" with
    | some (.str chain), some (.str addr), some (.str fn), some (.arr args) =>
      match jsGet fields "multisig" with
      | none => some ⟨chain, addr, fn, args, none⟩
      | some (.str m) => some ⟨chain, addr, fn, args, some m⟩
      | some _ => none
    | _, _, _, _ => none
  | _ => none

/-- The double-nesting unwrap of `extractTransactionsFromMarkdown`
(`transactionParser.ts` lines 49–55): if the parsed array has length exactly 1
and its sole element is itself an array, that inner array replaces it. -/
def unwrapDoubleNested (l : List Json) : List Json :=
  match l with
  | [Json.arr inner] => inner
  | _ => l

/-- `Array.prototype.map` with a possibly-throwing callback: the exception
(`none`) propagates. -/
def mapOpt (f : α → Option β) : List α → Option (List β)
  | [] => some []
  | a :: rest => (f a).bind fun b => (mapOpt f rest).map fun bs => b :: bs

/-- One group of the new (multisig-grouped) format
(`transactionParser.ts` lines 69–77): `{ multisig: group.multisig,
transactions: group.transactions.map(tx => parseTransaction (stringify tx)) }`.
`none` models a thrown exception (null group, missing/non-array
`transactions`, or a transaction failing to parse). -/
def parseGroupNew (j : Json) : Option MultisigTransactionGroup := do
  let m ← jsProp j "multisig"
  let t ← jsProp j "transactions"
  match t with
  | some (.arr txs) => do
    let parsed ← mapOpt parseTransaction txs
    pure ⟨m, parsed⟩
  | _ => none

/-- Format detection and per-format processing on the (already unwrapped)
array (`transactionParser.ts` lines 57–90).  The `'multisig' in x` test can
throw (primitive first element); `&&` short-circuits. `none` models any thrown
exception inside the `try`. -/
def processUnwrapped (l : List Json) :
    Option (List TransactionData × List MultisigTransactionGroup) := do
  let isNewFormat ←
    match l with
    | [] => some false
    | x :: _ => do
      let a ← jsMember "multisig" x
      if a then jsMember "transactions" x else pure false
  if isNewFormat then
    let transactionGroups ← mapOpt parseGroupNew l
    let allTransactions := (transactionGroups.map (fun g => g.transactions)).flatten
    pure (allTransactions, transactionGroups)
  else
    let transactions ← mapOpt parseTransaction l
    pure (transactions, [⟨none, transactions⟩])

/-- Processing of a parsed JSON array: unwrap the double-nesting first, then
detect and process the format (`transactionParser.ts` lines 49–96). -/
def extractArrayCore (l : List Json) :
    Option (List TransactionData × List MultisigTransactionGroup) :=
  processUnwrapped (unwrapDoubleNested l)

/-- `extractTransactionsFromMarkdown` (`transactionParser.ts` lines 17–117).
No section, a JSON parse failure, a non-array JSON value, or any exception
thrown while processing (all paths are inside the `try`) produce the fallback
`{contentWithoutTransactions: content, transactions: [], transactionGroups: []}`;
on success the `## Transactions` section is removed from the content. -/
def extractTransactionsFromMarkdown (doc : Doc) : ExtractResult :=
  match doc.txSection with
  | none => ⟨doc, [], []⟩
  | some none => ⟨doc, [], []⟩
  | some (some j) =>
    match j with
    | .arr l =>
      match extractArrayCore l with
      | none => ⟨doc, [], []⟩
      | some (txs, groups) => ⟨⟨doc.body, none⟩, txs, groups⟩
    | _ => ⟨doc, [], []⟩

/-- The grouping key of `groupTransactionsByMultisig`
(`transactionParser.ts` line 139): `tx.multisig || 'undefined'`.  With
`multisig` typed `string | undefined`, the falsy values are `undefined` and
the empty string, both of which fall through to the string `'undefined'`. -/
def txKey (tx : TransactionData) : String :=
  match tx.multisig with
  | none => "undefined"
  | some s => if s = "" then "undefined" else s

/-- The property names a plain object literal `{}` inherits from
`Object.prototype` (all bound to truthy values — functions, and the
`__proto__` accessor yielding `Object.prototype` itself). -/
def objectProtoKeys : List String :=
  ["constructor", "hasOwnProperty", "isPrototypeOf", "propertyIsEnumerable",
   "toLocaleString", "toString", "valueOf", "__proto__",
   "__defineGetter__", "__defineSetter__", "__lookupGetter__",
   "__lookupSetter__"]

/-- Whether reading `k` on a fresh `{}` without an own property `k` yields a
truthy inherited value. -/
def isProtoKey (k : String) : Bool :=
  objectProtoKeys.contains k

/-- One step of the `reduce` in `groupTransactionsByMultisig`
(lines 138–145): `if (!groups[multisig]) groups[multisig] = [];
groups[multisig].push(tx)`.  The lookup `groups[multisig]` finds the own
entry first; with no own entry it consults the prototype chain, so for a key
inherited from `Object.prototype` the test is truthy, the initialization is
skipped, and `.push` on the inherited function/object throws a `TypeError` —
modelled by `none`.  Otherwise the own entry is created at the end (property
creation order) or the existing own array is extended. -/
def insertGrouped (acc : List (String × List TransactionData)) (k : String)
    (tx : TransactionData) : Option (List (String × List TransactionData)) :=
  match acc with
  | [] => if isProtoKey k then none else some [(k, [tx])]
  | (k', txs) :: rest =>
    if k' = k then some ((k', txs ++ [tx]) :: rest)
    else (insertGrouped rest k tx).map (fun r => (k', txs) :: r)

/-- The JS object built by the `reduce` in `groupTransactionsByMultisig`, as
an association list of its own properties in creation order; `none` models
the `TypeError` thrown on a multisig key inherited from
`Object.prototype`. -/
def groupedRecord (txs : List TransactionData) :
    Option (List (String × List TransactionData)) :=
  txs.foldl (fun acc tx => acc.bind (fun a => insertGrouped a (txKey tx) tx))
    (some [])

/-- Numeric value of an all-digit string. -/
def digitsVal (s : String) : Nat :=
  s.toList.foldl (fun acc c => acc * 10 + (c.toNat - 48)) 0

/-- Whether a string is an ECMAScript array-index property key (a canonical
base-10 numeral whose value is below 2^32 - 1).  `Object.entries` lists such
keys first, in ascending numeric order, before all other string keys in
insertion order. -/
def isArrayIndexKey (s : String) : Bool :=
  !s.isEmpty && s.toList.all (fun c => c.isDigit) &&
    (s = "0" || s.toList.head? ≠ some '0') && digitsVal s < 4294967295

/-- Insertion of one entry into a list sorted by ascending numeric key value. -/
def insertByVal (p : String × List TransactionData) :
    List (String × List TransactionData) → List (String × List TransactionData)
  | [] => [p]
  | q :: rest =>
    if digitsVal p.1 ≤ digitsVal q.1 then p :: q :: rest
    else q :: insertByVal p rest

/-- Sort entries by ascending numeric key value (for array-index keys). -/
def sortByVal (l : List (String × List TransactionData)) :
    List (String × List TransactionData) :=
  l.foldr insertByVal []

/-- The entry order produced by `Object.entries` on an ordinary JS object:
array-index keys first in ascending numeric order, then the remaining string
keys in property-creation order. -/
def jsObjectEntriesOrder (l : List (String × List TransactionData)) :
    List (String × List TransactionData) :=
  sortByVal (l.filter (fun p => isArrayIndexKey p.1)) ++
    l.filter (fun p => !isArrayIndexKey p.1)

/-- The final `map` of `groupTransactionsByMultisig` (lines 148–151): the key
`'undefined'` is mapped back to an absent multisig. -/
def mkGroup (p : String × List TransactionData) : MultisigTransactionGroup :=
  ⟨if p.1 = "undefined" then none else some (.str p.1), p.2⟩

/-- `groupTransactionsByMultisig` (`transactionParser.ts` lines 132–152):
early return on an empty input, then group by `tx.multisig || 'undefined'`
into a JS object and convert `Object.entries` of it to groups.  The function
has no `try`, so the `TypeError` raised by the `reduce` on a multisig key
inherited from `Object.prototype` propagates to the caller (`none`). -/
def groupTransactionsByMultisig (txs : List TransactionData) :
    Option (List MultisigTransactionGroup) :=
  match txs with
  | [] => some []
  | _ => (groupedRecord txs).map
      (fun grouped => (jsObjectEntriesOrder grouped).map mkGroup)

/-- Keys of a list in order of first occurrence (the property-creation order
of the JS object built by the grouping `reduce`). -/
def firstKeys : List String → List String
  | [] => []
  | k :: rest => k :: (firstKeys rest).filter (fun k' => k' ≠ k)

/-- Modelled from the spec: `ABIParser.formatTransaction` followed by
`JSON.parse` (`src/utils/abiParser.ts` is not among the given sources; spec
§4.1: "canonical JSON round-trip of a Transaction Descriptor", §3: the ABI
descriptor is transient and not persisted).  `JSON.stringify` drops
properties whose value is `undefined`, so an absent multisig produces no
`multisig` key. -/
def txToJson (tx : TransactionData) : Json :=
  .obj ([("chain", .str tx.chain), ("contractAddress", .str tx.contractAddress),
         ("functionName", .str tx.functionName), ("args", .arr tx.args)] ++
        (match tx.multisig with
         | none => []
         | some m => [("multisig", .str m)]))

/-- The JSON object serialized for one group by `handleSubmit`
(`ProposalEditor.tsx` lines 199–206): the object literal
`{ multisig: group.multisig, transactions: group.transactions.map(...) }`
passed to `JSON.stringify`, which drops the `multisig` property when the
group's multisig is `undefined`. -/
def groupToJson (g : MultisigTransactionGroup) : Json :=
  .obj ((match g.multisig with
         | none => []
         | some v => [("multisig", v)]) ++
        [("transactions", .arr (g.transactions.map txToJson))])

/-- The serializer of `handleSubmit` (`ProposalEditor.tsx` lines 197–226)
composed with the persisted-document layout (spec §6; `formatQCIContent` of
the IPFS service is not among the given sources — modelled from the spec:
the document is the body followed by a `## Transactions` heading and a fenced
JSON block containing `JSON.stringify` of the groups, the section being
present only when the transaction list is nonempty).  When the grouping call
throws, `handleSubmit` produces no document (`none`). -/
def embedGroups (body : String) (txs : List TransactionData) : Option Doc :=
  match txs with
  | [] => some ⟨body, none⟩
  | _ => (groupTransactionsByMultisig txs).map
      (fun gl => ⟨body, some (some (.arr (gl.map groupToJson)))⟩)

/-- `pat` is a prefix of `text` (character lists). -/
def hasPrefixChars : List Char → List Char → Bool
  | [], _ => true
  | _ :: _, [] => false
  | p :: ps, t :: ts => p = t && hasPrefixChars ps ts

/-- `pat` occurs contiguously in `text` (character lists). -/
def hasSubChars (pat : List Char) : List Char → Bool
  | [] => pat.isEmpty
  | t :: ts => hasPrefixChars pat (t :: ts) || hasSubChars pat ts

/-- JavaScript's `haystack.includes(needle)`. -/
def strContains (hay needle : String) : Bool :=
  hasSubChars needle.toList hay.toList

/-- ASCII lower-casing of one character (what `toLowerCase` does on the ASCII
error messages involved). -/
def toLowerChar (c : Char) : Char :=
  if 'A' ≤ c && c ≤ 'Z' then Char.ofNat (c.toNat + 32) else c

/-- ASCII `toLowerCase`. -/
def strToLower (s : String) : String :=
  String.mk (s.toList.map toLowerChar)

/-- The signer-rejection test of the `retry` option of
`useStatusUpdateMutation` (`useUpdateQCI.ts` lines 171–174): the error message
contains `"user rejected"`, `"User denied"` or `"User cancelled"`, or its
lower-casing contains `"rejected"`. -/
def isRejectionMessage (msg : String) : Bool :=
  strContains msg "user rejected" || strContains msg "User denied" ||
    strContains msg "User cancelled" || strContains (strToLower msg) "rejected"

/-- The `retry` predicate passed to `useMutation` by `useStatusUpdateMutation`
(`useUpdateQCI.ts` lines 170–178): `false` on signer rejection, otherwise
`failureCount < 2`. -/
def statusUpdateRetry (failureCount : Nat) (msg : String) : Bool :=
  if isRejectionMessage msg then false else decide (failureCount < 2)

/-- The retry behaviour of `useCreateQCI` and `useUpdateQCI`, which pass no
`retry` option to `useMutation`: the TanStack Query default for mutations is
no retry. -/
def defaultMutationRetry (_failureCount : Nat) (_msg : String) : Bool :=
  false

/-- Number of times the mutation function (hence the on-chain call inside it)
runs, given the retry predicate, the failure count already accumulated, and
the sequence of error messages produced by the successive failing attempts:
each listed failure consumes one attempt, and a further attempt happens only
while the predicate approves. -/
def attemptCount (pred : Nat → String → Bool) : Nat → List String → Nat
  | _, [] => 0
  | k, m :: rest => 1 + (if pred k m then attemptCount pred (k + 1) rest else 0)

/-- A list entry as held by the query cache for claim C5: the fields the
status-update optimistic patch touches (`statusEnum` mirrors `status` and is
patched to the same value, so one field suffices). -/
structure Qci where
  qciNumber : Nat
  status : String
deriving DecidableEq

/-- The two query-cache entries involved in the status-update optimistic
protocol: the value stored under the exact key `["qcis", "api"]` (an object
whose properties hold arrays of entries, as the updater expects), and the
value stored under the full key
`["qcis", "api", maiApiUrl, {includeContent: false, ...}]` (an array of
entries).  `setQueryData`/`getQueryData` address exactly one key, so the two
entries are independent. -/
structure ListCache where
  apiEntry : Option (List (String × List Qci))
  fullEntry : Option (List Qci)
deriving DecidableEq

/-- Patch one cached entry to the new status when it is the mutated QCI
(`useUpdateQCI.ts` lines 242–243 and 258). -/
def patchQci (n : Nat) (st : String) (q : Qci) : Qci :=
  if q.qciNumber = n then { q with status := st } else q

/-- The functional updater passed to `setQueryData(["qcis", "api"], ...)` in
`onMutate` (`useUpdateQCI.ts` lines 232–249): bail out when there is no
cached value; find a property key containing `"forceRefresh"` or equal to
`"0"`; patch that property's array; otherwise return the value unchanged. -/
def apiUpdater (n : Nat) (st : String) :
    Option (List (String × List Qci)) → Option (List (String × List Qci))
  | none => none
  | some fields =>
    match fields.find? (fun p => strContains p.1 "forceRefresh" || p.1 = "0") with
    | some hit =>
      some (fields.map (fun p =>
        if p.1 = hit.1 then (p.1, p.2.map (patchQci n st)) else p))
    | none => some fields

/-- `onMutate` of `useStatusUpdateMutation` (`useUpdateQCI.ts` lines
221–263): snapshot `previousData := getQueryData(["qcis", "api"])`, patch the
`["qcis", "api"]` entry through the guarded updater, patch the full-key entry
when present, and return the snapshot as the mutation context. -/
def onMutateStatus (n : Nat) (st : String) (c : ListCache) :
    ListCache × Option (List (String × List Qci)) :=
  let previousData := c.apiEntry
  let c1 : ListCache := { c with apiEntry := apiUpdater n st c.apiEntry }
  let c2 : ListCache :=
    match c1.fullEntry with
    | none => c1
    | some l => { c1 with fullEntry := some (l.map (patchQci n st)) }
  (c2, previousData)

/-- `onError` of `useStatusUpdateMutation` (`useUpdateQCI.ts` lines 265–286):
when the context snapshot is truthy, write it back under the exact key
`["qcis", "api"]`; nothing else in the cache is touched. -/
def onErrorStatus (previousData : Option (List (String × List Qci)))
    (c : ListCache) : ListCache :=
  match previousData with
  | none => c
  | some prev => { c with apiEntry := some prev }

/-- Query-cache operations that do not rewrite entry values. -/
inductive CacheEff where
  | cancelQueries (key : List String)
  | invalidateQueries (key : List String)
deriving DecidableEq

/-- `onSuccess` of `useStatusUpdateMutation` (`useUpdateQCI.ts` lines
288–298): no `setQueryData` — the cached values are untouched and the
`["qcis"]` queries are invalidated (marked stale, active ones refetched). -/
def onSuccessStatus (c : ListCache) : ListCache × List CacheEff :=
  (c, [CacheEff.invalidateQueries ["qcis"]])

/-- `onSettled` of `useStatusUpdateMutation` (`useUpdateQCI.ts` lines
300–304): invalidate `["qcis", "api"]`, again without rewriting values. -/
def onSettledStatus (c : ListCache) : ListCache × List CacheEff :=
  (c, [CacheEff.invalidateQueries ["qcis", "api"]])

/-- External effects performed by the create/update mutation functions, in
program order. -/
inductive ChainEff where
  | calcCID
  | calcContentHash
  | writeCreateQCI (title chain contentHash ipfsUrl : String)
  | writeUpdateQCI (qciNumber : Nat)
      (title chain implementor contentHash ipfsUrl note : String)
  | waitReceipt (confirmations : Nat)
  | uploadToIPFS
  | warnCIDMismatch (expected actual : String)
  | readQCIStatus
  | writeUpdateStatus (qciNumber : Nat) (statusName : String)
  | readQCIVersion
deriving DecidableEq

/-- Environment of one run of the `useCreateQCI` mutation function: the
outcome of each external call (`Except.error` models a thrown/rejected call).
`hasPublicClient` models `usePublicClient()` returning a client or
`undefined` (the receipt wait is behind `publicClient?.`).  `receiptTopic` is
the QCI number decoded from `receipt.logs` (`none` when no matching log /
topic, in which case the code falls back to 0). -/
structure CreateEnv where
  title : String
  chain : String
  contentHash : String
  cidResult : Except String String
  writeResult : Except String String
  hasPublicClient : Bool
  receiptTopic : Except String (Option Nat)
  uploadResult : Except String String

/-- Result value of the `useCreateQCI` mutation function. -/
structure CreateQCIResult where
  qciNumber : Nat
  ipfsUrl : String
  transactionHash : String
deriving DecidableEq

/-- The mutation function of `useCreateQCI` (`useCreateQCI.ts` lines 39–97)
as a straight-line effect trace: pre-calculate the CID, calculate the content
hash, call `createQCI` with the hash and the pre-computed `ipfs://` pointer,
wait for the receipt (one confirmation) when a public client is available,
upload to IPFS, warn (never throw) on a CID mismatch, and return the
pre-computed pointer.  The surrounding `catch` logs and rethrows the error
unchanged. -/
def createQCIMutationFn (env : CreateEnv) :
    List ChainEff × Except String CreateQCIResult :=
  match env.cidResult with
  | .error e => ([ChainEff.calcCID], .error e)
  | .ok expectedCID =>
    let expectedIpfsUrl := "ipfs://" ++ expectedCID
    let pre := [ChainEff.calcCID, ChainEff.calcContentHash,
      ChainEff.writeCreateQCI env.title env.chain env.contentHash expectedIpfsUrl]
    match env.writeResult with
    | .error e => (pre, .error e)
    | .ok txHash =>
      let wait : List ChainEff × Except String Nat :=
        if env.hasPublicClient then
          match env.receiptTopic with
          | .error e => ([ChainEff.waitReceipt 1], .error e)
          | .ok t => ([ChainEff.waitReceipt 1], .ok (t.getD 0))
        else ([], .ok 0)
      match wait.2 with
      | .error e => (pre ++ wait.1, .error e)
      | .ok qciNumber =>
        match env.uploadResult with
        | .error e => (pre ++ wait.1 ++ [ChainEff.uploadToIPFS], .error e)
        | .ok actualCID =>
          (pre ++ wait.1 ++ [ChainEff.uploadToIPFS] ++
            (if actualCID ≠ expectedCID then
              [ChainEff.warnCIDMismatch expectedCID actualCID] else []),
           .ok ⟨qciNumber, expectedIpfsUrl, txHash⟩)

/-- Environment of one run of the `useUpdateQCI` mutation function; fields as
in `CreateEnv`, plus the optional requested status change (`newStatus`, with
`statusName` the display name `STATUS_ENUM_TO_NAME[newStatus] ?? "Draft"`),
the current on-chain status read, the `updateStatus` write outcome, and the
final version read. -/
structure UpdateEnv where
  qciNumber : Nat
  title : String
  chain : String
  implementor : String
  contentHash : String
  cidResult : Except String String
  writeResult : Except String String
  hasPublicClient : Bool
  receiptOk : Except String Unit
  uploadResult : Except String String
  newStatus : Option Nat
  statusName : String
  currentStatusRead : Except String Nat
  statusWriteResult : Except String String
  versionRead : Except String Nat

/-- Result value of the `useUpdateQCI` mutation function. -/
structure UpdateQCIResult where
  qciNumber : Nat
  ipfsUrl : String
  version : Nat
  transactionHash : String
deriving DecidableEq

/-- The mutation function of `useUpdateQCI` (`useUpdateQCI.ts` lines 43–135)
as a straight-line effect trace: pre-calculate the CID and content hash, call
`updateQCI` with them and the pre-computed pointer, wait for one confirmation
when a public client is available, upload to IPFS, warn (never throw) on a
CID mismatch, optionally read the current status and call `updateStatus` when
it differs, and read the record for the version.  When no public client is
available the final `updatedQCI[12]` access throws a `TypeError`.  The
`catch` logs and rethrows the error unchanged. -/
def updateQCIMutationFn (env : UpdateEnv) :
    List ChainEff × Except String UpdateQCIResult :=
  match env.cidResult with
  | .error e => ([ChainEff.calcCID], .error e)
  | .ok expectedCID =>
    let expectedIpfsUrl := "ipfs://" ++ expectedCID
    let pre := [ChainEff.calcCID, ChainEff.calcContentHash,
      ChainEff.writeUpdateQCI env.qciNumber env.title env.chain env.implementor
        env.contentHash expectedIpfsUrl "Updated via web interface"]
    match env.writeResult with
    | .error e => (pre, .error e)
    | .ok txHash =>
      let wait : List ChainEff × Except String Unit :=
        if env.hasPublicClient then
          match env.receiptOk with
          | .error e => ([ChainEff.waitReceipt 1], .error e)
          | .ok _ => ([ChainEff.waitReceipt 1], .ok ())
        else ([], .ok ())
      match wait.2 with
      | .error e => (pre ++ wait.1, .error e)
      | .ok _ =>
        match env.uploadResult with
        | .error e => (pre ++ wait.1 ++ [ChainEff.uploadToIPFS], .error e)
        | .ok actualCID =>
          let mid := pre ++ wait.1 ++ [ChainEff.uploadToIPFS] ++
            (if actualCID ≠ expectedCID then
              [ChainEff.warnCIDMismatch expectedCID actualCID] else [])
          let statusStep : List ChainEff × Except String Unit :=
            match env.newStatus with
            | none => ([], .ok ())
            | some ns =>
              if env.hasPublicClient then
                match env.currentStatusRead with
                | .error e => ([ChainEff.readQCIStatus], .error e)
                | .ok cur =>
                  if ns ≠ cur then
                    match env.statusWriteResult with
                    | .error e =>
                      ([ChainEff.readQCIStatus,
                        ChainEff.writeUpdateStatus env.qciNumber env.statusName],
                       .error e)
                    | .ok _ =>
                      ([ChainEff.readQCIStatus,
                        ChainEff.writeUpdateStatus env.qciNumber env.statusName],
                       .ok ())
                  else ([ChainEff.readQCIStatus], .ok ())
              else ([], .ok ())
          match statusStep.2 with
          | .error e => (mid ++ statusStep.1, .error e)
          | .ok _ =>
            if env.hasPublicClient then
              match env.versionRead with
              | .error e => (mid ++ statusStep.1 ++ [ChainEff.readQCIVersion], .error e)
              | .ok ver =>
                (mid ++ statusStep.1 ++ [ChainEff.readQCIVersion],
                 .ok ⟨env.qciNumber, expectedIpfsUrl, ver, txHash⟩)
            else
              (mid ++ statusStep.1,
               .error "TypeError: Cannot read properties of undefined (reading 12)")

/-- Trace check: every on-chain write and every upload is preceded by both
the CID calculation and the content-hash calculation (flags: CID seen, hash
seen). -/
def hashesFirstOk : List ChainEff → Bool → Bool → Bool
  | [], _, _ => true
  | ChainEff.calcCID :: rest, _, h => hashesFirstOk rest true h
  | ChainEff.calcContentHash :: rest, c, _ => hashesFirstOk rest c true
  | ChainEff.writeCreateQCI _ _ _ _ :: rest, c, h =>
    c && h && hashesFirstOk rest c h
  | ChainEff.writeUpdateQCI _ _ _ _ _ _ _ :: rest, c, h =>
    c && h && hashesFirstOk rest c h
  | ChainEff.uploadToIPFS :: rest, c, h => c && h && hashesFirstOk rest c h
  | _ :: rest, c, h => hashesFirstOk rest c h

/-- Trace check: every upload is preceded by a receipt wait (flag: a
`waitReceipt` has been seen). -/
def uploadsAfterWaitOk : List ChainEff → Bool → Bool
  | [], _ => true
  | ChainEff.waitReceipt _ :: rest, _ => uploadsAfterWaitOk rest true
  | ChainEff.uploadToIPFS :: rest, w => w && uploadsAfterWaitOk rest w
  | _ :: rest, w => uploadsAfterWaitOk rest w

/-- Decimal digits, least significant first, with explicit recursion fuel
(correct whenever `n < fuel`). -/
def natDigitsRevFuel : Nat → Nat → List Char
  | 0, _ => []
  | fuel + 1, n =>
    if n < 10 then [Nat.digitChar n]
    else Nat.digitChar (n % 10) :: natDigitsRevFuel fuel (n / 10)

/-- Decimal digits of `n`, least significant first. -/
def natDigitsRev (n : Nat) : List Char :=
  natDigitsRevFuel (n + 1) n

/-- Decimal rendering of a natural number. -/
def natToDecString (n : Nat) : String :=
  String.mk (natDigitsRev n).reverse

/-- Decimal rendering of an integer (JS `toString` on an integral value). -/
def intToDecString (v : Int) : String :=
  if v < 0 then "-" ++ natToDecString v.natAbs else natToDecString v.toNat

/-- Value of a decimal digit character, `none` on a non-digit. -/
def digitVal? (c : Char) : Option Nat :=
  if c.isDigit then some (c.toNat - 48) else none

/-- Left-to-right accumulation of decimal digits; fails on a non-digit. -/
def parseDecDigits (cs : List Char) : Option Nat :=
  cs.foldl (fun acc c => acc.bind (fun a => (digitVal? c).map (fun d => a * 10 + d)))
    (some 0)

/-- Base-10 natural-number literal: one or more decimal digits. -/
def parseDecNat (cs : List Char) : Option Nat :=
  if cs.isEmpty then none else parseDecDigits cs

/-- Value of a hexadecimal digit character, `none` otherwise. -/
def hexVal? (c : Char) : Option Nat :=
  if c.isDigit then some (c.toNat - 48)
  else if 'a' ≤ c && c ≤ 'f' then some (c.toNat - 87)
  else if 'A' ≤ c && c ≤ 'F' then some (c.toNat - 55)
  else none

/-- Base-16 natural-number literal: one or more hex digits. -/
def parseHexNat (cs : List Char) : Option Nat :=
  if cs.isEmpty then none
  else cs.foldl (fun acc c => acc.bind (fun a => (hexVal? c).map (fun d => a * 16 + d)))
    (some 0)

/-- Modelled from the spec: the literal parsing of the integer branch of
`ABIParser.validateInput` (`src/utils/abiParser.ts` is not among the given
sources; spec §4.1: "must parse as a base-10 (or `0x`-prefixed hex) integer
... retained as an arbitrary-precision integer representation (never a native
floating-point number)").  The result is an unbounded `Int`. -/
def parseIntegerLiteral (s : String) : Option Int :=
  match s.toList with
  | [] => none
  | c :: rest =>
    if c = '-' then (parseDecNat rest).map (fun n => -(n : Int))
    else if c = '0' ∧ rest.head? = some 'x' then
      (parseHexNat (rest.drop 1)).map (fun n => (n : Int))
    else (parseDecNat (c :: rest)).map (fun n => (n : Int))

/-- The representable range of a Solidity `uintN` / `intN` of declared bit
width `bits`: non-negative below `2 ^ bits` for unsigned, the two's-complement
range for signed. -/
def inIntRange (signed : Bool) (bits : Nat) (v : Int) : Bool :=
  if signed then
    decide (-(2 ^ (bits - 1) : Int) ≤ v) && decide (v < (2 ^ (bits - 1) : Int))
  else
    decide (0 ≤ v) && decide (v < (2 ^ bits : Int))

/-- Modelled from the spec: the integer branch of `ABIParser.validateInput`
for a type `uintN` (`signed = false`) or `intN` (`signed = true`) of declared
bit width `bits` (spec §4.1).  `some v` stands for
`{valid: true, parsed: v}` with `v` an arbitrary-precision integer; `none`
stands for `{valid: false}` (unparsable literal or out-of-range value). -/
def validateIntegerInput (signed : Bool) (bits : Nat) (value : String) :
    Option Int :=
  match parseIntegerLiteral value with
  | none => none
  | some v => if inIntRange signed bits v then some v else none

/-- Specification-side characterization of the grouping (spec §4.2:
"stable partition; ... group order = order of first occurrence of each owner
(including the implicit group) in the input sequence"): the keys in order of
first occurrence, each paired with the input subsequence carrying that key.
Defined for comparison against the implementation's `groupedRecord`. -/
def firstOccurrenceGrouping (txs : List TransactionData) :
    List (String × List TransactionData) :=
  (firstKeys (txs.map txKey)).map
    (fun k => (k, txs.filter (fun tx => txKey tx = k)))

/-! ## Helper lemmas -/

theorem parseTransaction_txToJson (tx : TransactionData) :
    parseTransaction (txToJson tx) = some tx := by
  rcases tx with ⟨c, a, f, args, m⟩
  cases m <;> rfl

theorem mapOpt_parseTransaction_txToJson (txs : List TransactionData) :
    mapOpt parseTransaction (txs.map txToJson) = some txs := by
  induction txs with
  | nil => rfl
  | cons tx rest ih =>
    simp [mapOpt, parseTransaction_txToJson, ih]

theorem parseGroupNew_groupToJson (g : MultisigTransactionGroup) :
    parseGroupNew (groupToJson g) = some g := by
  rcases g with ⟨m, txs⟩
  cases m with
  | none =>
    simp [groupToJson, parseGroupNew, jsProp, jsGet,
      mapOpt_parseTransaction_txToJson]
  | some v =>
    simp [groupToJson, parseGroupNew, jsProp, jsGet,
      mapOpt_parseTransaction_txToJson]

theorem mapOpt_parseGroupNew_groupToJson (gl : List MultisigTransactionGroup) :
    mapOpt parseGroupNew (gl.map groupToJson) = some gl := by
  induction gl with
  | nil => rfl
  | cons g rest ih =>
    simp [mapOpt, parseGroupNew_groupToJson, ih]

theorem jsMember_multisig_txToJson (tx : TransactionData) :
    jsMember "multisig" (txToJson tx) = some tx.multisig.isSome := by
  rcases tx with ⟨c, a, f, args, m⟩
  cases m <;> rfl

theorem jsMember_transactions_txToJson (tx : TransactionData) :
    jsMember "transactions" (txToJson tx) = some false := by
  rcases tx with ⟨c, a, f, args, m⟩
  cases m <;> rfl

/-- The legacy (flat) path succeeds on any serialized flat transaction list:
no element of `t.map txToJson` owns a `transactions` key, so format detection
chooses the legacy branch, and every element parses back. -/
theorem processUnwrapped_map_txToJson (t : List TransactionData) :
    processUnwrapped (t.map txToJson)
      = some (t, [⟨none, t⟩]) := by
  cases t with
  | nil => rfl
  | cons tx rest =>
    have h1 := jsMember_multisig_txToJson tx
    have h2 := jsMember_transactions_txToJson tx
    simp only [List.map_cons, processUnwrapped, h1, h2]
    cases h : tx.multisig <;>
      simp [h, mapOpt, parseTransaction_txToJson,
        mapOpt_parseTransaction_txToJson]

theorem unwrapDoubleNested_map_txToJson (t : List TransactionData) :
    unwrapDoubleNested (t.map txToJson) = t.map txToJson := by
  cases t with
  | nil => rfl
  | cons a t' => cases t' <;> rfl

theorem unwrapDoubleNested_map_groupToJson (gl : List MultisigTransactionGroup) :
    unwrapDoubleNested (gl.map groupToJson) = gl.map groupToJson := by
  cases gl with
  | nil => rfl
  | cons g gl' => cases gl' <;> rfl

/-! ## Claim C6 -/

/-- **C6** (confirmed).  For every flat transaction list `t`,
`extractTransactionsFromMarkdown` on a document embedding the double-nested
shape `[[t...]]` yields exactly the same result as on a document embedding the
legacy flat array `[t...]`; the unwrap fires exactly on a one-element array
whose sole element is an array, and it runs before the canonical-shape test
(`extractArrayCore` is the unwrap followed by format detection). -/
theorem claim6_double_nesting (body : String) (t : List TransactionData) :
    extractTransactionsFromMarkdown
        ⟨body, some (some (.arr [.arr (t.map txToJson)]))⟩
      = extractTransactionsFromMarkdown
        ⟨body, some (some (.arr (t.map txToJson)))⟩
    ∧ (∀ inner : List Json, unwrapDoubleNested [Json.arr inner] = inner)
    ∧ (∀ l : List Json, (∀ inner, l ≠ [Json.arr inner]) →
        unwrapDoubleNested l = l)
    ∧ (∀ l : List Json, extractArrayCore l
        = processUnwrapped (unwrapDoubleNested l)) := by
  refine ⟨?_, fun inner => rfl, ?_, fun l => rfl⟩
  · simp only [extractTransactionsFromMarkdown, extractArrayCore]
    rw [show unwrapDoubleNested [Json.arr (t.map txToJson)] = t.map txToJson
        from rfl,
      unwrapDoubleNested_map_txToJson, processUnwrapped_map_txToJson]
  · intro l h
    cases l with
    | nil => rfl
    | cons a l' =>
      cases l' with
      | nil =>
        cases a with
        | arr inner => exact absurd rfl (h inner)
        | null => rfl
        | bool b => rfl
        | num n => rfl
        | str s => rfl
        | obj f => rfl
      | cons b rest => cases a <;> rfl

/-- **C6 witness**: the equivalence evaluated on a concrete one-transaction
list, plus a concrete discharge of the guarded unwrap characterization. -/
theorem claim6_double_nesting_witness :
    extractTransactionsFromMarkdown
        ⟨"body", some (some (.arr [.arr
          ([(⟨"Base", "0xabc", "approve", [], none⟩ : TransactionData)].map
            txToJson)]))⟩
      = extractTransactionsFromMarkdown
        ⟨"body", some (some (.arr
          ([(⟨"Base", "0xabc", "approve", [], none⟩ : TransactionData)].map
            txToJson)))⟩
    ∧ unwrapDoubleNested [Json.null] = [Json.null] := by
  refine ⟨(claim6_double_nesting "body" _).1, ?_⟩
  exact (claim6_double_nesting "body" []).2.2.1 [Json.null]
    (by intro inner h; simp at h)

/-! ## Claim C7 -/

/-- **C7** (confirmed).  For every content document: with no `## Transactions`
fenced-JSON section, with a section whose text is not valid JSON, or with a
block whose JSON value is not an array, `extractTransactionsFromMarkdown`
returns the original content unchanged together with empty `transactions` and
`transactionGroups`.  The function is total (every exception inside the `try`
is caught and produces this same fallback), so it never throws. -/
theorem claim7_malformed_fallback (doc : Doc)
    (h : doc.txSection = none ∨ doc.txSection = some none ∨
      ∃ j, doc.txSection = some (some j) ∧ ∀ l, j ≠ Json.arr l) :
    extractTransactionsFromMarkdown doc = ⟨doc, [], []⟩ := by
  rcases h with h | h | ⟨j, hj, hna⟩
  · simp [extractTransactionsFromMarkdown, h]
  · simp [extractTransactionsFromMarkdown, h]
  · cases j with
    | arr l => exact absurd rfl (hna l)
    | null => simp [extractTransactionsFromMarkdown, hj]
    | bool b => simp [extractTransactionsFromMarkdown, hj]
    | num n => simp [extractTransactionsFromMarkdown, hj]
    | str s => simp [extractTransactionsFromMarkdown, hj]
    | obj f => simp [extractTransactionsFromMarkdown, hj]

/-- **C7 witness**: the fallback evaluated on a concrete document whose
`## Transactions` block is present but not valid JSON. -/
theorem claim7_malformed_fallback_witness :
    extractTransactionsFromMarkdown ⟨"# Title\n\nbody", some none⟩
      = ⟨⟨"# Title\n\nbody", some none⟩, [], []⟩ :=
  claim7_malformed_fallback ⟨"# Title\n\nbody", some none⟩ (Or.inr (Or.inl rfl))

set_option maxRecDepth 4000

/-! ## Claim C3 -/

/-- **C3 counterexample**: a non-rejection submission error of the
status-change operation *is* automatically retried — the retry predicate
approves a second and third attempt, so a mutation failing three times with a
network error performs three on-chain call invocations, contradicting "no
automatic retry of the on-chain call". -/
theorem claim3_no_retry_counterexample :
    statusUpdateRetry 0 "network timeout" = true
    ∧ attemptCount statusUpdateRetry 0
        ["network timeout", "network timeout", "network timeout"] = 3 := by
  decide

/-- **C3** (corrected).  Signer rejections are never retried (for the
status-change operation the retry predicate returns `false` on any rejection
message regardless of the failure count, so the operation fails directly); the
create and update operations never retry any error (no `retry` option, and
the library default for mutations is no retry); and a submission error of the
create/update on-chain call is rethrown verbatim to the caller.  However — the
correction — the status-change operation retries a *non-rejection* error
while `failureCount < 2`: its retry predicate equals
`!rejection && failureCount < 2`, so up to two automatic retries happen. -/
theorem claim3_retry_policy_amended (n : Nat) (msg : String)
    (errs : List String) (envC : CreateEnv) (envU : UpdateEnv)
    (cidC cidU e e' : String) :
    (isRejectionMessage msg = true → statusUpdateRetry n msg = false)
    ∧ statusUpdateRetry n msg = (!isRejectionMessage msg && decide (n < 2))
    ∧ attemptCount defaultMutationRetry n (msg :: errs) = 1
    ∧ (isRejectionMessage msg = true →
        attemptCount statusUpdateRetry n (msg :: errs) = 1)
    ∧ (envC.cidResult = .ok cidC → envC.writeResult = .error e →
        (createQCIMutationFn envC).2 = .error e)
    ∧ (envU.cidResult = .ok cidU → envU.writeResult = .error e' →
        (updateQCIMutationFn envU).2 = .error e') := by
  refine ⟨fun h => by simp [statusUpdateRetry, h], ?_,
    by simp [attemptCount, defaultMutationRetry],
    fun h => by simp [attemptCount, statusUpdateRetry, h], ?_, ?_⟩
  · cases h : isRejectionMessage msg <;> simp [statusUpdateRetry, h]
  · intro h1 h2
    rcases envC with ⟨t, ch, hsh, cidr, wr, hpc, rt, ur⟩
    simp only at h1 h2
    subst h1; subst h2
    simp [createQCIMutationFn]
  · intro h1 h2
    rcases envU with ⟨q, t, ch, im, hsh, cidr, wr, hpc, ro, ur, ns, sn, cs, sw, vr⟩
    simp only at h1 h2
    subst h1; subst h2
    simp [updateQCIMutationFn]

/-- **C3 witness**: the amended retry policy evaluated at a concrete
rejection message, a concrete create-run whose on-chain write throws, and one
failing attempt under the create/update (no-retry) policy. -/
theorem claim3_retry_policy_witness :
    statusUpdateRetry 1 "user rejected the request" = false
    ∧ attemptCount defaultMutationRetry 1 ["user rejected the request"] = 1
    ∧ (createQCIMutationFn ⟨"t", "Base", "h", .ok "Qm", .error "boom", true,
        .ok (some 1), .ok "Qm"⟩).2 = .error "boom" := by
  obtain ⟨a, b, c, d, e, f⟩ :=
    claim3_retry_policy_amended 1 "user rejected the request" []
      ⟨"t", "Base", "h", .ok "Qm", .error "boom", true, .ok (some 1), .ok "Qm"⟩
      ⟨2, "t", "c", "i", "h", .ok "Q", .ok "tx", true, .ok (), .ok "Q",
        none, "Draft", .ok 0, .ok "tx2", .ok 1⟩
      "Qm" "Q" "boom" "x"
  exact ⟨a (by decide), c, e rfl rfl⟩

/-! ## Claim C2 -/

theorem create_hashesFirst (env : CreateEnv) :
    hashesFirstOk (createQCIMutationFn env).1 false false = true := by
  rcases env with ⟨t, ch, hsh, cidr, wr, hpc, rt, ur⟩
  cases cidr with
  | error e => rfl
  | ok c =>
    cases wr with
    | error e => rfl
    | ok tx =>
      cases hpc <;> cases rt <;> (try cases ur) <;>
        first
          | rfl
          | (rename_i a
             by_cases hac : a = c <;>
               simp [createQCIMutationFn, hashesFirstOk, hac])

theorem create_uploadsAfterWait (env : CreateEnv)
    (h : env.hasPublicClient = true) :
    uploadsAfterWaitOk (createQCIMutationFn env).1 false = true := by
  rcases env with ⟨t, ch, hsh, cidr, wr, hpc, rt, ur⟩
  simp only at h
  subst h
  cases cidr with
  | error e => rfl
  | ok c =>
    cases wr with
    | error e => rfl
    | ok tx =>
      cases rt <;> (try cases ur) <;>
        first
          | rfl
          | (rename_i a
             by_cases hac : a = c <;>
               simp [createQCIMutationFn, uploadsAfterWaitOk, hac])

theorem create_writeArgs (env : CreateEnv) (cid : String)
    (h : env.cidResult = .ok cid) :
    ChainEff.writeCreateQCI env.title env.chain env.contentHash
      ("ipfs://" ++ cid) ∈ (createQCIMutationFn env).1 := by
  rcases env with ⟨t, ch, hsh, cidr, wr, hpc, rt, ur⟩
  simp only at h ⊢
  subst h
  cases wr with
  | error e => simp [createQCIMutationFn]
  | ok tx =>
    cases hpc <;> cases rt <;> (try cases ur) <;>
      simp [createQCIMutationFn]

/-- **C2 counterexample**: `usePublicClient()` may return `undefined`, and the
receipt wait is written `publicClient?.waitForTransactionReceipt(...)` — in a
run without a public client the mutation performs the IPFS upload directly
after submitting the transaction, with no receipt wait at all, so the
off-chain write precedes on-chain acknowledgment. -/
theorem claim2_create_order_counterexample :
    ChainEff.uploadToIPFS ∈ (createQCIMutationFn
      ⟨"t", "Base", "h", .ok "Qm", .ok "0xtx", false, .ok (some 1),
        .ok "Qm"⟩).1
    ∧ uploadsAfterWaitOk (createQCIMutationFn
      ⟨"t", "Base", "h", .ok "Qm", .ok "0xtx", false, .ok (some 1),
        .ok "Qm"⟩).1 false = false := by
  decide

/-- **C2** (corrected).  In every run of the create mutation the CID and the
content hash are computed before the on-chain write and before any upload,
and the `createQCI` call receives the content hash and the pre-computed
`ipfs://` pointer among its arguments; *when a public client is available*
(the `publicClient?.` guard) the upload happens only after the
one-confirmation receipt wait.  The correction: when `usePublicClient()`
returns `undefined`, the upload proceeds without awaiting confirmation. -/
theorem claim2_create_order_amended (env : CreateEnv) :
    hashesFirstOk (createQCIMutationFn env).1 false false = true
    ∧ (env.hasPublicClient = true →
        uploadsAfterWaitOk (createQCIMutationFn env).1 false = true)
    ∧ (∀ cid, env.cidResult = .ok cid →
        ChainEff.writeCreateQCI env.title env.chain env.contentHash
          ("ipfs://" ++ cid) ∈ (createQCIMutationFn env).1) :=
  ⟨create_hashesFirst env,
   fun h => create_uploadsAfterWait env h,
   fun cid h => create_writeArgs env cid h⟩

/-- **C2 witness**: the amended ordering properties evaluated on a concrete
fully-successful run with a public client. -/
theorem claim2_create_order_witness :
    hashesFirstOk (createQCIMutationFn
      ⟨"t", "Base", "h", .ok "Qm", .ok "0xtx", true, .ok (some 1),
        .ok "Qm"⟩).1 false false = true
    ∧ uploadsAfterWaitOk (createQCIMutationFn
      ⟨"t", "Base", "h", .ok "Qm", .ok "0xtx", true, .ok (some 1),
        .ok "Qm"⟩).1 false = true
    ∧ ChainEff.writeCreateQCI "t" "Base" "h" ("ipfs://" ++ "Qm")
        ∈ (createQCIMutationFn
          ⟨"t", "Base", "h", .ok "Qm", .ok "0xtx", true, .ok (some 1),
            .ok "Qm"⟩).1 := by
  obtain ⟨a, b, c⟩ := claim2_create_order_amended
    ⟨"t", "Base", "h", .ok "Qm", .ok "0xtx", true, .ok (some 1), .ok "Qm"⟩
  exact ⟨a, b rfl, c "Qm" rfl⟩

/-! ## Claim C4 -/

/-- **C4 counterexample**: on a run whose upload returns `"QmActual"` while
the pre-computed identifier is `"QmExpected"`, the mutation still succeeds but
the `ipfsUrl` in the returned result is the *pre-computed* pointer, not the
identifier returned by the upload call. -/
theorem claim4_pointer_counterexample :
    (createQCIMutationFn ⟨"t", "Base", "h", .ok "QmExpected", .ok "0xtx",
        true, .ok (some 1), .ok "QmActual"⟩).2
      = .ok ⟨1, "ipfs://QmExpected", "0xtx"⟩
    ∧ ("ipfs://QmExpected" : String) ≠ "ipfs://QmActual" :=
  ⟨rfl, by decide⟩

/-- **C4** (corrected).  When the off-chain upload returns an identifier
different from the pre-computed CID, the create and update operations still
report success, and the mismatch produces a logged warning effect (never a
thrown error).  The correction: the pointer in the returned result is the
*pre-computed* `ipfs://` identifier (the one registered on-chain), not the
identifier returned by the upload call. -/
theorem claim4_pointer_amended (envC : CreateEnv) (envU : UpdateEnv)
    (e a tx : String) (t? : Option Nat) (e' a' tx' : String) (v : Nat) :
    (envC.cidResult = .ok e → envC.writeResult = .ok tx →
     envC.hasPublicClient = true → envC.receiptTopic = .ok t? →
     envC.uploadResult = .ok a → a ≠ e →
       (createQCIMutationFn envC).2 = .ok ⟨t?.getD 0, "ipfs://" ++ e, tx⟩
       ∧ ChainEff.warnCIDMismatch e a ∈ (createQCIMutationFn envC).1)
    ∧ (envU.cidResult = .ok e' → envU.writeResult = .ok tx' →
       envU.hasPublicClient = true → envU.receiptOk = .ok () →
       envU.uploadResult = .ok a' → a' ≠ e' → envU.newStatus = none →
       envU.versionRead = .ok v →
         (updateQCIMutationFn envU).2
             = .ok ⟨envU.qciNumber, "ipfs://" ++ e', v, tx'⟩
         ∧ ChainEff.warnCIDMismatch e' a' ∈ (updateQCIMutationFn envU).1) := by
  constructor
  · intro h1 h2 h3 h4 h5 hne
    rcases envC with ⟨t, ch, hsh, cidr, wr, hpc, rt, ur⟩
    simp only at h1 h2 h3 h4 h5
    subst h1; subst h2; subst h3; subst h4; subst h5
    constructor <;> simp [createQCIMutationFn, hne]
  · intro h1 h2 h3 h4 h5 hne h6 h7
    rcases envU with ⟨q, t, ch, im, hsh, cidr, wr, hpc, ro, ur, ns, sn, cs, sw, vr⟩
    simp only at h1 h2 h3 h4 h5 h6 h7 ⊢
    subst h1; subst h2; subst h3; subst h4; subst h5; subst h6; subst h7
    constructor <;> simp [updateQCIMutationFn, hne]

/-- **C4 witness**: the amended behaviour evaluated on a concrete create run
with a CID mismatch. -/
theorem claim4_pointer_witness :
    (createQCIMutationFn ⟨"t", "Base", "h", .ok "QmE", .ok "0xtx", true,
        .ok (some 1), .ok "QmA"⟩).2 = .ok ⟨1, "ipfs://" ++ "QmE", "0xtx"⟩
    ∧ ChainEff.warnCIDMismatch "QmE" "QmA" ∈ (createQCIMutationFn
        ⟨"t", "Base", "h", .ok "QmE", .ok "0xtx", true, .ok (some 1),
          .ok "QmA"⟩).1 := by
  exact (claim4_pointer_amended
    ⟨"t", "Base", "h", .ok "QmE", .ok "0xtx", true, .ok (some 1), .ok "QmA"⟩
    ⟨2, "t", "c", "i", "h", .ok "QmE2", .ok "0xtx2", true, .ok (), .ok "QmA2",
      none, "Draft", .ok 0, .ok "x", .ok 3⟩
    "QmE" "QmA" "0xtx" (some 1) "QmE2" "QmA2" "0xtx2" 3).1
    rfl rfl rfl rfl rfl (by decide)

/-! ## Claim C5 -/

/-- **C5 counterexample**: with both list representations cached, a failing
status change does not restore the pre-operation cache: `onError` writes the
snapshot back only under the exact key `["qcis", "api"]`, while the entry
optimistically patched under the full query key keeps the new status. -/
theorem claim5_rollback_counterexample :
    onErrorStatus
        (onMutateStatus 1 "Approved"
          ⟨some [("0", [⟨1, "Draft"⟩])], some [⟨1, "Draft"⟩]⟩).2
        (onMutateStatus 1 "Approved"
          ⟨some [("0", [⟨1, "Draft"⟩])], some [⟨1, "Draft"⟩]⟩).1
      ≠ ⟨some [("0", [⟨1, "Draft"⟩])], some [⟨1, "Draft"⟩]⟩
    ∧ (onErrorStatus
        (onMutateStatus 1 "Approved"
          ⟨some [("0", [⟨1, "Draft"⟩])], some [⟨1, "Draft"⟩]⟩).2
        (onMutateStatus 1 "Approved"
          ⟨some [("0", [⟨1, "Draft"⟩])], some [⟨1, "Draft"⟩]⟩).1).fullEntry
      = some [⟨1, "Approved"⟩] := by
  decide

/-- **C5** (corrected).  Before the chain call, `onMutate` optimistically
patches both cached list representations of the entity (the full-key list
entry is patched whenever present; the `["qcis", "api"]` entry through its
guarded updater); on failure the `["qcis", "api"]` entry is restored exactly
to the pre-operation snapshot; on success nothing asserts the optimistic
value — the cache is left untouched and the `["qcis"]` queries are
invalidated (marked stale).  The correction: the rollback does *not* restore
the full-key entry — its optimistic patch survives the error handler, so the
cache does not equal its pre-operation state. -/
theorem claim5_optimistic_amended (c : ListCache) (n : Nat) (st : String) :
    ((onMutateStatus n st c).1.fullEntry
        = c.fullEntry.map (fun l => l.map (patchQci n st)))
    ∧ ((onMutateStatus n st c).1.apiEntry = apiUpdater n st c.apiEntry)
    ∧ ((onErrorStatus (onMutateStatus n st c).2
          (onMutateStatus n st c).1).apiEntry = c.apiEntry)
    ∧ ((onErrorStatus (onMutateStatus n st c).2
          (onMutateStatus n st c).1).fullEntry
        = (onMutateStatus n st c).1.fullEntry)
    ∧ onSuccessStatus (onMutateStatus n st c).1
        = ((onMutateStatus n st c).1, [CacheEff.invalidateQueries ["qcis"]]) := by
  rcases c with ⟨api, full⟩
  refine ⟨?_, ?_, ?_, ?_, rfl⟩
  · cases full <;> simp [onMutateStatus]
  · cases full <;> simp [onMutateStatus]
  · cases api with
    | none => cases full <;> simp [onMutateStatus, onErrorStatus, apiUpdater]
    | some v => cases full <;> simp [onMutateStatus, onErrorStatus]
  · cases api with
    | none => cases full <;> simp [onMutateStatus, onErrorStatus]
    | some v => cases full <;> simp [onMutateStatus, onErrorStatus]

/-! ## Claim C10 -/

theorem foldl_insertGrouped_allUndefined (txs : List TransactionData) :
    ∀ pre : List TransactionData, (∀ tx ∈ txs, txKey tx = "undefined") →
    List.foldl (fun acc tx => acc.bind (fun a => insertGrouped a (txKey tx) tx))
      (some [("undefined", pre)]) txs = some [("undefined", pre ++ txs)] := by
  induction txs with
  | nil => intro pre _; simp
  | cons tx rest ih =>
    intro pre h
    have htx : txKey tx = "undefined" := h tx (by simp)
    simp only [List.foldl_cons]
    rw [show (some [("undefined", pre)]).bind
          (fun a => insertGrouped a (txKey tx) tx)
        = some [("undefined", pre ++ [tx])] by rw [htx]; simp [insertGrouped]]
    rw [ih (pre ++ [tx]) (fun t ht => h t (by simp [ht]))]
    simp

/-- **C10** (confirmed).  `groupTransactionsByMultisig` collapses every
descriptor whose multisig is absent, the empty string (the falsy string
values of `tx.multisig || 'undefined'`), or the literal string
`"undefined"` onto the same implicit group, whose key is `undefined`
(because the key `'undefined'` is mapped back to `undefined`): a sequence of
such descriptors yields exactly one group (no exception — `"undefined"` is
not an `Object.prototype` key) with an absent multisig holding the whole
sequence, so the grouping is not injective on these multisig values and the
original field value is not recoverable from the group key. -/
theorem claim10_falsy_collapse (txs : List TransactionData)
    (h : ∀ tx ∈ txs, tx.multisig = none ∨ tx.multisig = some "" ∨
      tx.multisig = some "undefined") :
    groupTransactionsByMultisig txs
      = some (if txs.isEmpty then [] else [⟨none, txs⟩]) := by
  have hk : ∀ tx ∈ txs, txKey tx = "undefined" := by
    intro tx htx
    rcases h tx htx with h' | h' | h' <;> simp [txKey, h']
  cases txs with
  | nil => rfl
  | cons tx rest =>
    have h1 : groupedRecord (tx :: rest) = some [("undefined", tx :: rest)] := by
      simp only [groupedRecord, List.foldl_cons]
      rw [show (some []).bind (fun a => insertGrouped a (txKey tx) tx)
          = some [("undefined", [tx])] by rw [hk tx (by simp)]; rfl]
      rw [foldl_insertGrouped_allUndefined rest [tx]
        (fun t ht => hk t (by simp [ht]))]
      simp
    show (groupedRecord (tx :: rest)).map
        (fun grouped => (jsObjectEntriesOrder grouped).map mkGroup) = _
    rw [h1]
    simp [jsObjectEntriesOrder, sortByVal, mkGroup,
      show isArrayIndexKey "undefined" = false from by decide]

/-- **C10 witness**: one descriptor of each falsy/`"undefined"` flavor ends
up in the single implicit group. -/
theorem claim10_falsy_collapse_witness :
    groupTransactionsByMultisig
      [⟨"Base", "0xa", "f", [], none⟩, ⟨"Base", "0xb", "g", [], some ""⟩,
       ⟨"Base", "0xc", "h", [], some "undefined"⟩]
      = some [⟨none,
          [⟨"Base", "0xa", "f", [], none⟩, ⟨"Base", "0xb", "g", [], some ""⟩,
           ⟨"Base", "0xc", "h", [], some "undefined"⟩]⟩] := by
  have := claim10_falsy_collapse
    [⟨"Base", "0xa", "f", [], none⟩, ⟨"Base", "0xb", "g", [], some ""⟩,
     ⟨"Base", "0xc", "h", [], some "undefined"⟩]
    (by intro tx htx; simp at htx
        rcases htx with rfl | rfl | rfl <;> simp)
  simpa using this

/-! ## Claim C8 -/

theorem mem_firstKeys {l : List String} {k : String} :
    k ∈ firstKeys l ↔ k ∈ l := by
  induction l with
  | nil => simp [firstKeys]
  | cons a rest ih =>
    by_cases hka : k = a <;>
      simp [firstKeys, List.mem_filter, ih, hka]

theorem nodup_firstKeys (l : List String) : (firstKeys l).Nodup := by
  induction l with
  | nil => simp [firstKeys]
  | cons a rest ih =>
    refine List.nodup_cons.mpr ⟨?_, ih.filter _⟩
    intro hmem
    simp [List.mem_filter] at hmem

theorem firstKeys_append_singleton (l : List String) (k : String) :
    firstKeys (l ++ [k])
      = if k ∈ l then firstKeys l else firstKeys l ++ [k] := by
  induction l with
  | nil => simp [firstKeys]
  | cons a rest ih =>
    simp only [List.cons_append, firstKeys, List.append_eq]
    rw [ih]
    by_cases hk : k ∈ rest
    · rw [if_pos hk, if_pos (List.mem_cons.mpr (Or.inr hk))]
    · by_cases hka : k = a
      · subst hka
        rw [if_neg hk, if_pos (List.mem_cons.mpr (Or.inl rfl)),
          List.filter_append]
        simp
      · rw [if_neg hk, if_neg (by simp [hka, hk]), List.filter_append]
        simp [hka]

theorem map_patch_not_mem (l : List (String × List TransactionData))
    (k : String) (tx : TransactionData) (h : ∀ p ∈ l, p.1 ≠ k) :
    l.map (fun p => if p.1 = k then (p.1, p.2 ++ [tx]) else p) = l := by
  induction l with
  | nil => rfl
  | cons p rest ih =>
    simp only [List.map_cons, if_neg (h p (by simp))]
    rw [ih (fun q hq => h q (by simp [hq]))]

theorem insertGrouped_notMem (acc : List (String × List TransactionData))
    (k : String) (tx : TransactionData) (hk : isProtoKey k = false)
    (h : k ∉ acc.map Prod.fst) :
    insertGrouped acc k tx = some (acc ++ [(k, [tx])]) := by
  induction acc with
  | nil => simp [insertGrouped, hk]
  | cons p rest ih =>
    rcases p with ⟨k', txs⟩
    simp only [List.map_cons, List.mem_cons] at h
    push_neg at h
    simp only [insertGrouped, List.cons_append]
    rw [if_neg (Ne.symm h.1), ih h.2]
    rfl

theorem insertGrouped_mem (acc : List (String × List TransactionData))
    (k : String) (tx : TransactionData)
    (hnd : (acc.map Prod.fst).Nodup) (h : k ∈ acc.map Prod.fst) :
    insertGrouped acc k tx
      = some (acc.map (fun p => if p.1 = k then (p.1, p.2 ++ [tx]) else p)) := by
  induction acc with
  | nil => simp at h
  | cons p rest ih =>
    rcases p with ⟨k', txs⟩
    simp only [List.map_cons, List.nodup_cons] at hnd
    by_cases hk : k' = k
    · subst hk
      have hrest : ∀ q ∈ rest, q.1 ≠ k' :=
        fun q hq heq => hnd.1 (heq ▸ List.mem_map_of_mem Prod.fst hq)
      simp only [insertGrouped, List.map_cons, if_true]
      rw [map_patch_not_mem rest k' tx hrest]
    · have hmem : k ∈ rest.map Prod.fst := by
        rcases List.mem_cons.mp h with h' | h'
        · exact absurd h'.symm hk
        · exact h'
      simp only [insertGrouped, List.map_cons]
      rw [if_neg hk, if_neg hk, ih hnd.2 hmem]
      rfl

/-- A lookup with a key inherited from `Object.prototype` and no own entry
finds the truthy inherited value and the subsequent `.push` throws. -/
theorem insertGrouped_poison (acc : List (String × List TransactionData))
    (k : String) (tx : TransactionData) (hacc : ∀ p ∈ acc, p.1 ≠ k)
    (hk : isProtoKey k = true) :
    insertGrouped acc k tx = none := by
  induction acc with
  | nil => simp [insertGrouped, hk]
  | cons p rest ih =>
    rcases p with ⟨k', txs⟩
    simp only [insertGrouped]
    rw [if_neg (hacc (k', txs) (by simp)), ih (fun q hq => hacc q (by simp [hq]))]
    rfl

theorem insertGrouped_isSome (acc : List (String × List TransactionData))
    (k : String) (tx : TransactionData) (hk : isProtoKey k = false) :
    ∃ a, insertGrouped acc k tx = some a := by
  induction acc with
  | nil => exact ⟨[(k, [tx])], by simp [insertGrouped, hk]⟩
  | cons p rest ih =>
    rcases p with ⟨k', txs⟩
    by_cases hkk : k' = k
    · exact ⟨(k', txs ++ [tx]) :: rest, by simp [insertGrouped, hkk]⟩
    · obtain ⟨a, ha⟩ := ih
      exact ⟨(k', txs) :: a, by simp [insertGrouped, hkk, ha]⟩

/-- Inserting preserves the own-key list up to appending the inserted key. -/
theorem insertGrouped_keys (acc : List (String × List TransactionData))
    (k : String) (tx : TransactionData)
    (a : List (String × List TransactionData))
    (h : insertGrouped acc k tx = some a) :
    a.map Prod.fst = acc.map Prod.fst
      ∨ a.map Prod.fst = acc.map Prod.fst ++ [k] := by
  induction acc generalizing a with
  | nil =>
    simp only [insertGrouped] at h
    cases hk : isProtoKey k with
    | true => rw [if_pos hk] at h; simp at h
    | false =>
      rw [if_neg (by simp [hk])] at h
      right
      obtain rfl : a = [(k, [tx])] := (Option.some.inj h).symm
      rfl
  | cons p rest ih =>
    rcases p with ⟨k', txs⟩
    simp only [insertGrouped] at h
    by_cases hkk : k' = k
    · rw [if_pos hkk] at h
      obtain rfl := (Option.some.inj h).symm
      left
      rfl
    · rw [if_neg hkk] at h
      cases hr : insertGrouped rest k tx with
      | none => rw [hr] at h; simp at h
      | some r =>
        rw [hr] at h
        obtain rfl : a = (k', txs) :: r := by simpa using h.symm
        rcases ih r hr with h' | h'
        · left; simp [h']
        · right; simp [h']

theorem keys_firstOccurrenceGrouping (pre : List TransactionData) :
    (firstOccurrenceGrouping pre).map Prod.fst
      = firstKeys (pre.map txKey) := by
  unfold firstOccurrenceGrouping
  rw [List.map_map]
  rw [show (Prod.fst ∘ fun k =>
      (k, List.filter (fun tx => decide (txKey tx = k)) pre))
    = (id : String → String) from rfl, List.map_id]

theorem insertGrouped_firstOccurrence (pre : List TransactionData)
    (tx : TransactionData) (hpk : isProtoKey (txKey tx) = false) :
    insertGrouped (firstOccurrenceGrouping pre) (txKey tx) tx
      = some (firstOccurrenceGrouping (pre ++ [tx])) := by
  by_cases hmem : txKey tx ∈ pre.map txKey
  · rw [insertGrouped_mem _ _ _
      ((keys_firstOccurrenceGrouping pre) ▸ nodup_firstKeys _)
      (by rw [keys_firstOccurrenceGrouping, mem_firstKeys]; exact hmem)]
    refine congrArg some ?_
    have hfk : firstKeys (pre.map txKey ++ [txKey tx])
        = firstKeys (pre.map txKey) := by
      rw [firstKeys_append_singleton, if_pos hmem]
    simp only [firstOccurrenceGrouping, List.map_append, List.map_singleton,
      hfk, List.map_map]
    refine List.map_congr_left ?_
    intro k hk
    by_cases hkk : k = txKey tx
    · subst hkk
      simp [Function.comp, List.filter_append]
    · simp [Function.comp, List.filter_append, hkk, Ne.symm hkk]
  · rw [insertGrouped_notMem _ _ _ hpk
      (by rw [keys_firstOccurrenceGrouping, mem_firstKeys]; exact hmem)]
    refine congrArg some ?_
    have hfk : firstKeys (pre.map txKey ++ [txKey tx])
        = firstKeys (pre.map txKey) ++ [txKey tx] := by
      rw [firstKeys_append_singleton, if_neg hmem]
    simp only [firstOccurrenceGrouping, List.map_append, List.map_singleton,
      hfk]
    congr 1
    · refine List.map_congr_left ?_
      intro k hk
      rw [mem_firstKeys] at hk
      have hne : txKey tx ≠ k := fun hc => hmem (hc ▸ hk)
      simp [List.filter_append, hne]
    · have hnil : pre.filter (fun tx' => txKey tx' = txKey tx) = [] := by
        refine List.filter_eq_nil_iff.mpr ?_
        intro tx' htx'
        simp only [decide_eq_true_eq]
        intro hc
        exact hmem (hc ▸ List.mem_map_of_mem txKey htx')
      simp [List.filter_append, hnil]

theorem foldl_insertGrouped_firstOccurrence (txs : List TransactionData) :
    ∀ pre : List TransactionData,
    (∀ tx ∈ txs, isProtoKey (txKey tx) = false) →
    List.foldl (fun acc tx => acc.bind (fun a => insertGrouped a (txKey tx) tx))
      (some (firstOccurrenceGrouping pre)) txs
      = some (firstOccurrenceGrouping (pre ++ txs)) := by
  induction txs with
  | nil => intro pre _; simp
  | cons tx rest ih =>
    intro pre h
    simp only [List.foldl_cons]
    rw [show (some (firstOccurrenceGrouping pre)).bind
          (fun a => insertGrouped a (txKey tx) tx)
        = some (firstOccurrenceGrouping (pre ++ [tx])) from
      insertGrouped_firstOccurrence pre tx (h tx (by simp))]
    rw [ih (pre ++ [tx]) (fun t ht => h t (by simp [ht]))]
    simp

theorem groupedRecord_eq_firstOccurrence (txs : List TransactionData)
    (h : ∀ tx ∈ txs, isProtoKey (txKey tx) = false) :
    groupedRecord txs = some (firstOccurrenceGrouping txs) := by
  have hfold := foldl_insertGrouped_firstOccurrence txs [] h
  simpa [groupedRecord, firstOccurrenceGrouping, firstKeys] using hfold

theorem foldl_insertGrouped_none (txs : List TransactionData) :
    List.foldl (fun acc tx => acc.bind (fun a => insertGrouped a (txKey tx) tx))
      none txs = none := by
  induction txs with
  | nil => rfl
  | cons tx rest ih => simpa using ih

/-- When some multisig key collides with an `Object.prototype` property
name, the grouping `reduce` throws: the own keys created before the
collision are never prototype keys, so the first such descriptor hits the
truthy inherited value and `.push` fails. -/
theorem foldl_insertGrouped_poison (txs : List TransactionData) :
    ∀ acc : List (String × List TransactionData),
    (∀ p ∈ acc, isProtoKey p.1 = false) →
    (∃ tx ∈ txs, isProtoKey (txKey tx) = true) →
    List.foldl (fun acc tx => acc.bind (fun a => insertGrouped a (txKey tx) tx))
      (some acc) txs = none := by
  induction txs with
  | nil => intro acc _ hex; simp at hex
  | cons tx rest ih =>
    intro acc hacc hex
    simp only [List.foldl_cons]
    cases hp : isProtoKey (txKey tx) with
    | true =>
      rw [show (some acc).bind (fun a => insertGrouped a (txKey tx) tx)
          = none by
        show insertGrouped acc (txKey tx) tx = none
        exact insertGrouped_poison acc (txKey tx) tx
          (fun p hpm heq => by
            have := hacc p hpm
            rw [heq, hp] at this
            exact Bool.noConfusion this)
          hp]
      exact foldl_insertGrouped_none rest
    | false =>
      obtain ⟨a, ha⟩ := insertGrouped_isSome acc (txKey tx) tx hp
      rw [show (some acc).bind (fun a => insertGrouped a (txKey tx) tx)
          = some a from ha]
      have hex' : ∃ tx' ∈ rest, isProtoKey (txKey tx') = true := by
        obtain ⟨tx', htx', hptx'⟩ := hex
        rcases List.mem_cons.mp htx' with rfl | hmem
        · rw [hp] at hptx'; exact Bool.noConfusion hptx'
        · exact ⟨tx', hmem, hptx'⟩
      refine ih a ?_ hex'
      intro p hpm
      rcases insertGrouped_keys acc (txKey tx) tx a ha with hkeys | hkeys
      · have : p.1 ∈ acc.map Prod.fst := by
          rw [← hkeys]; exact List.mem_map_of_mem Prod.fst hpm
        obtain ⟨q, hq, hq1⟩ := List.mem_map.mp this
        rw [← hq1]; exact hacc q hq
      · have : p.1 ∈ acc.map Prod.fst ++ [txKey tx] := by
          rw [← hkeys]; exact List.mem_map_of_mem Prod.fst hpm
        rcases List.mem_append.mp this with hin | hin
        · obtain ⟨q, hq, hq1⟩ := List.mem_map.mp hin
          rw [← hq1]; exact hacc q hq
        · rw [List.mem_singleton.mp hin]; exact hp

theorem groupedRecord_poison (txs : List TransactionData)
    (hex : ∃ tx ∈ txs, isProtoKey (txKey tx) = true) :
    groupedRecord txs = none :=
  foldl_insertGrouped_poison txs [] (by simp) hex

theorem groupTransactionsByMultisig_poison (txs : List TransactionData)
    (hex : ∃ tx ∈ txs, isProtoKey (txKey tx) = true) :
    groupTransactionsByMultisig txs = none := by
  cases txs with
  | nil => simp at hex
  | cons tx rest =>
    show (groupedRecord (tx :: rest)).map _ = none
    rw [groupedRecord_poison _ hex]
    rfl

theorem groupedRecord_some_no_poison (txs : List TransactionData)
    (g : List (String × List TransactionData))
    (h : groupedRecord txs = some g) :
    ∀ tx ∈ txs, isProtoKey (txKey tx) = false := by
  intro tx htx
  cases hp : isProtoKey (txKey tx) with
  | false => rfl
  | true =>
    rw [groupedRecord_poison txs ⟨tx, htx, hp⟩] at h
    exact Option.noConfusion h

theorem jsObjectEntriesOrder_of_no_index
    (l : List (String × List TransactionData))
    (h : ∀ p ∈ l, isArrayIndexKey p.1 = false) :
    jsObjectEntriesOrder l = l := by
  have h1 : l.filter (fun p => isArrayIndexKey p.1) = [] :=
    List.filter_eq_nil_iff.mpr (fun a ha => by simp [h a ha])
  have h2 : l.filter (fun p => !isArrayIndexKey p.1) = l :=
    List.filter_eq_self.mpr (fun a ha => by simp [h a ha])
  simp [jsObjectEntriesOrder, h1, h2, sortByVal]

/-- **C8 counterexample**: multisig values that are canonical numeric strings
are reordered by JS object key ordering — with input keys first occurring in
the order `"2"`, `"1"`, the produced groups come out in ascending numeric
order `"1"`, `"2"`, not in order of first occurrence, so the partition is not
ordered by first occurrence for every descriptor sequence.  (A second failure
mode of the universal claim: on a multisig key inherited from
`Object.prototype` the function throws and produces no partition at all —
covered by the amended theorem.) -/
theorem claim8_grouping_counterexample :
    groupTransactionsByMultisig
        [⟨"c", "a", "f", [], some "2"⟩, ⟨"c", "a", "f", [], some "1"⟩]
      ≠ some ((firstKeys ([(⟨"c", "a", "f", [], some "2"⟩ : TransactionData),
            ⟨"c", "a", "f", [], some "1"⟩].map txKey)).map
          (fun k => mkGroup (k,
            [(⟨"c", "a", "f", [], some "2"⟩ : TransactionData),
             ⟨"c", "a", "f", [], some "1"⟩].filter
              (fun tx => txKey tx = k)))) := by
  intro h
  rw [show groupTransactionsByMultisig
        [⟨"c", "a", "f", [], some "2"⟩, ⟨"c", "a", "f", [], some "1"⟩]
      = some [⟨some (Json.str "1"), [⟨"c", "a", "f", [], some "1"⟩]⟩,
         ⟨some (Json.str "2"), [⟨"c", "a", "f", [], some "2"⟩]⟩] from rfl] at h
  rw [show (firstKeys ([(⟨"c", "a", "f", [], some "2"⟩ : TransactionData),
            ⟨"c", "a", "f", [], some "1"⟩].map txKey)).map
          (fun k => mkGroup (k,
            [(⟨"c", "a", "f", [], some "2"⟩ : TransactionData),
             ⟨"c", "a", "f", [], some "1"⟩].filter
              (fun tx => txKey tx = k)))
      = [⟨some (Json.str "2"), [⟨"c", "a", "f", [], some "2"⟩]⟩,
         ⟨some (Json.str "1"), [⟨"c", "a", "f", [], some "1"⟩]⟩] from rfl] at h
  simp at h

/-- **C8** (corrected).  Provided no multisig key collides with an
`Object.prototype` property name, `groupTransactionsByMultisig` returns (no
exception) the partition of the input into per-key subsequences (each
descriptor in exactly one group, inner order preserved, the implicit group
keyed `undefined`), arranged in ECMAScript object-entry order of the
grouping record: array-index numeric keys first in ascending order, then the
remaining keys in order of first occurrence; under the additional condition
that no key is a canonical numeric array-index string, group order is
exactly first-occurrence order.  The corrections: (1) numeric-string multisig
values are reordered ahead in ascending order, and (2) on a multisig value
inherited from `Object.prototype` (`"toString"`, `"constructor"`,
`"hasOwnProperty"`, `"__proto__"`, ...) the `reduce` hits the truthy
inherited property, skips initialization, and throws a `TypeError` at
`.push` — no partition is produced. -/
theorem claim8_grouping_amended (txs : List TransactionData) :
    ((∀ tx ∈ txs, isProtoKey (txKey tx) = false) →
      groupTransactionsByMultisig txs
        = some ((jsObjectEntriesOrder (firstOccurrenceGrouping txs)).map
            mkGroup))
    ∧ ((∀ tx ∈ txs, isProtoKey (txKey tx) = false ∧
          isArrayIndexKey (txKey tx) = false) →
        groupTransactionsByMultisig txs
          = some ((firstKeys (txs.map txKey)).map
              (fun k => mkGroup (k, txs.filter (fun tx => txKey tx = k)))))
    ∧ ((∃ tx ∈ txs, isProtoKey (txKey tx) = true) →
        groupTransactionsByMultisig txs = none) := by
  have hmain : (∀ tx ∈ txs, isProtoKey (txKey tx) = false) →
      groupTransactionsByMultisig txs
        = some ((jsObjectEntriesOrder (firstOccurrenceGrouping txs)).map
            mkGroup) := by
    intro hnp
    cases txs with
    | nil => rfl
    | cons tx rest =>
      show (groupedRecord (tx :: rest)).map
          (fun grouped => (jsObjectEntriesOrder grouped).map mkGroup) = _
      rw [groupedRecord_eq_firstOccurrence _ hnp]
      rfl
  refine ⟨hmain, fun hidx => ?_, groupTransactionsByMultisig_poison txs⟩
  rw [hmain (fun tx htx => (hidx tx htx).1),
    jsObjectEntriesOrder_of_no_index]
  · refine congrArg some ?_
    simp [firstOccurrenceGrouping, List.map_map, Function.comp]
  · intro p hp
    simp only [firstOccurrenceGrouping, List.mem_map] at hp
    obtain ⟨k, hk, rfl⟩ := hp
    rw [mem_firstKeys] at hk
    obtain ⟨tx, htx, rfl⟩ := List.mem_map.mp hk
    exact (hidx tx htx).2

/-- **C8 witness**: the first-occurrence ordering evaluated on a concrete
two-descriptor input with a hex-address key and an implicit-group
descriptor, and the thrown `TypeError` on a `"toString"` multisig. -/
theorem claim8_grouping_witness :
    groupTransactionsByMultisig
        [⟨"Base", "0xabc", "approve", [], some "0xAAA"⟩,
         ⟨"Base", "0xabc", "approve", [], none⟩]
      = some ((firstKeys ([(⟨"Base", "0xabc", "approve", [],
            some "0xAAA"⟩ : TransactionData),
            ⟨"Base", "0xabc", "approve", [], none⟩].map txKey)).map
          (fun k => mkGroup (k,
            [(⟨"Base", "0xabc", "approve", [], some "0xAAA"⟩ :
              TransactionData),
             ⟨"Base", "0xabc", "approve", [], none⟩].filter
              (fun tx => txKey tx = k))))
    ∧ groupTransactionsByMultisig
        [⟨"Base", "0xabc", "approve", [], some "toString"⟩] = none := by
  constructor
  · refine (claim8_grouping_amended _).2.1 ?_
    intro tx htx
    simp at htx
    rcases htx with rfl | rfl <;> exact ⟨by decide, by decide⟩
  · refine (claim8_grouping_amended _).2.2 ?_
    exact ⟨⟨"Base", "0xabc", "approve", [], some "toString"⟩, by simp,
      by decide⟩

/-! ## Claim C1 -/

theorem insertByVal_ne_nil (p : String × List TransactionData)
    (l : List (String × List TransactionData)) : insertByVal p l ≠ [] := by
  cases l with
  | nil => simp [insertByVal]
  | cons q r =>
    show (if digitsVal p.1 ≤ digitsVal q.1 then p :: q :: r
      else q :: insertByVal p r) ≠ []
    split <;> simp

theorem jsObjectEntriesOrder_eq_nil
    (l : List (String × List TransactionData))
    (h : jsObjectEntriesOrder l = []) : l = [] := by
  cases l with
  | nil => rfl
  | cons x r =>
    exfalso
    rcases List.append_eq_nil.mp h with ⟨hs, hn⟩
    cases hx : isArrayIndexKey x.1 with
    | true =>
      rw [show (x :: r).filter (fun p => isArrayIndexKey p.1)
          = x :: r.filter (fun p => isArrayIndexKey p.1) by
            simp [List.filter_cons, hx]] at hs
      exact insertByVal_ne_nil x _ hs
    | false =>
      rw [show (x :: r).filter (fun p => !isArrayIndexKey p.1)
          = x :: r.filter (fun p => !isArrayIndexKey p.1) by
            simp [List.filter_cons, hx]] at hn
      simp at hn

theorem groupTransactionsByMultisig_cons_ne_nil (tx : TransactionData)
    (rest : List TransactionData) (gl : List MultisigTransactionGroup)
    (hgl : groupTransactionsByMultisig (tx :: rest) = some gl) :
    gl ≠ [] := by
  intro hnil
  subst hnil
  have hmap : (groupedRecord (tx :: rest)).map
      (fun grouped => (jsObjectEntriesOrder grouped).map mkGroup)
      = some [] := hgl
  cases hg : groupedRecord (tx :: rest) with
  | none => rw [hg] at hmap; exact Option.noConfusion hmap
  | some g =>
    rw [hg] at hmap
    have hgl' : (jsObjectEntriesOrder g).map mkGroup = [] := by
      simpa using hmap
    have h0 : jsObjectEntriesOrder g = [] := by
      cases he : jsObjectEntriesOrder g with
      | nil => rfl
      | cons a b => rw [he] at hgl'; simp at hgl'
    have h1 : g = [] := jsObjectEntriesOrder_eq_nil _ h0
    have hnp := groupedRecord_some_no_poison (tx :: rest) g hg
    rw [groupedRecord_eq_firstOccurrence _ hnp] at hg
    have hfg : firstOccurrenceGrouping (tx :: rest) = g := Option.some.inj hg
    rw [← hfg] at h1
    simp [firstOccurrenceGrouping, firstKeys] at h1

theorem jsMember_multisig_groupToJson (v : Json)
    (gtxs : List TransactionData) :
    jsMember "multisig" (groupToJson ⟨some v, gtxs⟩) = some true := rfl

theorem jsMember_transactions_groupToJson (v : Json)
    (gtxs : List TransactionData) :
    jsMember "transactions" (groupToJson ⟨some v, gtxs⟩) = some true := rfl

/-- When the first serialized group carries a `multisig` key, format
detection chooses the multisig-grouped branch and every group parses back. -/
theorem processUnwrapped_map_groupToJson (v : Json)
    (gtxs : List TransactionData) (gr : List MultisigTransactionGroup) :
    processUnwrapped (((⟨some v, gtxs⟩ : MultisigTransactionGroup) :: gr).map
        groupToJson)
      = some ((((⟨some v, gtxs⟩ : MultisigTransactionGroup) :: gr).map
          (fun g => g.transactions)).flatten,
        (⟨some v, gtxs⟩ : MultisigTransactionGroup) :: gr) := by
  simp only [List.map_cons, processUnwrapped,
    jsMember_multisig_groupToJson, jsMember_transactions_groupToJson]
  simp [mapOpt, parseGroupNew_groupToJson, mapOpt_parseGroupNew_groupToJson]

/-- **C1 counterexample**: a group sequence produced by the serializer whose
first (and only) group has an undefined multisig does not round-trip:
`JSON.stringify` drops the `undefined`-valued `multisig` property, so the
parser's format detection (`'multisig' in first`) chooses the legacy branch,
each *group object* is fed to `parseTransaction`, and the extraction falls
back to empty groups instead of reproducing the input. -/
theorem claim1_roundtrip_counterexample :
    (embedGroups "body" [⟨"Base", "0xabc", "approve", [], none⟩]).map
        (fun doc => (extractTransactionsFromMarkdown doc).transactionGroups)
      ≠ groupTransactionsByMultisig [⟨"Base", "0xabc", "approve", [], none⟩] := by
  intro h
  rw [show (embedGroups "body" [⟨"Base", "0xabc", "approve", [], none⟩]).map
        (fun doc => (extractTransactionsFromMarkdown doc).transactionGroups)
      = some [] from rfl] at h
  rw [show groupTransactionsByMultisig [⟨"Base", "0xabc", "approve", [], none⟩]
      = some [⟨none, [⟨"Base", "0xabc", "approve", [], none⟩]⟩] from rfl] at h
  simp at h

/-- **C1** (corrected).  For every group sequence the serializer actually
produces (`groupTransactionsByMultisig txs = some gl` — the grouping did not
throw — embedded by `handleSubmit` under `## Transactions`), extraction
reproduces the groups exactly — order and multisig partitioning preserved —
*provided the first group's multisig is defined* (later groups may have
undefined multisigs).  The correction: when the first group has an undefined
multisig key, `JSON.stringify` omits the property, format detection fails,
and the round trip breaks (see the counterexample), so the claim's
"including when the first group has an undefined multisig key" does not
hold. -/
theorem claim1_roundtrip_amended (body : String) (txs : List TransactionData)
    (gl : List MultisigTransactionGroup)
    (hgl : groupTransactionsByMultisig txs = some gl)
    (h : ∀ g ∈ gl.head?, g.multisig.isSome) :
    (embedGroups body txs).map
        (fun doc => (extractTransactionsFromMarkdown doc).transactionGroups)
      = some gl := by
  cases txs with
  | nil =>
    obtain rfl : gl = [] := by
      have hnil : some ([] : List MultisigTransactionGroup) = some gl := hgl
      exact (Option.some.inj hnil).symm
    rfl
  | cons tx rest =>
    obtain ⟨g₀, gr, rfl⟩ : ∃ g₀ gr, gl = g₀ :: gr := by
      cases gl with
      | nil =>
        exact absurd rfl (groupTransactionsByMultisig_cons_ne_nil tx rest [] hgl)
      | cons a b => exact ⟨a, b, rfl⟩
    have hg₀ : g₀.multisig.isSome := h g₀ (by simp)
    rcases g₀ with ⟨m, gtxs⟩
    obtain ⟨v, rfl⟩ : ∃ v, m = some v := by
      cases m with
      | none => simp at hg₀
      | some v => exact ⟨v, rfl⟩
    have hembed : embedGroups body (tx :: rest)
        = some ⟨body, some (some (.arr
            (((⟨some v, gtxs⟩ : MultisigTransactionGroup) :: gr).map
              groupToJson)))⟩ := by
      show (groupTransactionsByMultisig (tx :: rest)).map _ = _
      rw [hgl]
      rfl
    rw [hembed]
    refine congrArg some ?_
    simp only [extractTransactionsFromMarkdown, extractArrayCore,
      unwrapDoubleNested_map_groupToJson, processUnwrapped_map_groupToJson]

/-- **C1 witness**: a serialized two-group sequence whose first group has a
defined multisig round-trips exactly through embed and extract. -/
theorem claim1_roundtrip_witness :
    (embedGroups "body"
        [⟨"Base", "0xabc", "approve", [], some "0xAAA"⟩,
         ⟨"Base", "0xabc", "approve", [], none⟩]).map
        (fun doc => (extractTransactionsFromMarkdown doc).transactionGroups)
      = some [⟨some (Json.str "0xAAA"),
            [⟨"Base", "0xabc", "approve", [], some "0xAAA"⟩]⟩,
          ⟨none, [⟨"Base", "0xabc", "approve", [], none⟩]⟩] := by
  refine claim1_roundtrip_amended "body" _ _ rfl ?_
  intro g hg
  simp only [List.head?, Option.mem_def, Option.some.injEq] at hg
  rw [← hg]
  rfl

/-! ## Claim C9 -/

theorem digitVal_digitChar (d : Nat) (h : d < 10) :
    digitVal? (Nat.digitChar d) = some d := by
  interval_cases d <;> rfl

theorem digitChar_isDigit (d : Nat) (h : d < 10) :
    (Nat.digitChar d).isDigit = true := by
  interval_cases d <;> rfl

theorem parseDecDigits_append (cs : List Char) (c : Char) :
    parseDecDigits (cs ++ [c])
      = (parseDecDigits cs).bind
          (fun a => (digitVal? c).map (fun d => a * 10 + d)) := by
  simp [parseDecDigits, List.foldl_append]

theorem parseDecDigits_natDigitsRevFuel :
    ∀ fuel n, n < fuel →
      parseDecDigits (natDigitsRevFuel fuel n).reverse = some n := by
  intro fuel
  induction fuel with
  | zero => intro n hn; omega
  | succ fuel ih =>
    intro n hn
    by_cases h10 : n < 10
    · simp only [natDigitsRevFuel, if_pos h10, List.reverse_singleton]
      simp [parseDecDigits, digitVal_digitChar n h10]
    · simp only [natDigitsRevFuel, if_neg h10, List.reverse_cons]
      rw [parseDecDigits_append, ih (n / 10) (by omega),
        digitVal_digitChar (n % 10) (by omega)]
      simp
      omega

theorem natDigitsRevFuel_ne_nil (n : Nat) :
    natDigitsRevFuel (n + 1) n ≠ [] := by
  simp only [natDigitsRevFuel]
  split <;> simp

theorem natDigitsRevFuel_digits :
    ∀ fuel n c, c ∈ natDigitsRevFuel fuel n → c.isDigit = true := by
  intro fuel
  induction fuel with
  | zero => intro n c hc; simp [natDigitsRevFuel] at hc
  | succ fuel ih =>
    intro n c hc
    simp only [natDigitsRevFuel] at hc
    by_cases h10 : n < 10
    · rw [if_pos h10] at hc
      simp at hc
      exact hc ▸ digitChar_isDigit n h10
    · rw [if_neg h10] at hc
      rcases List.mem_cons.mp hc with rfl | hc'
      · exact digitChar_isDigit (n % 10) (by omega)
      · exact ih (n / 10) c hc'

theorem parseDecNat_natDigitsRev (n : Nat) :
    parseDecNat (natDigitsRev n).reverse = some n := by
  unfold parseDecNat
  rw [if_neg (by
    simp only [List.isEmpty_eq_true, List.reverse_eq_nil_iff]
    exact natDigitsRevFuel_ne_nil n)]
  exact parseDecDigits_natDigitsRevFuel (n + 1) n (by omega)

theorem natDigitsRev_reverse_digits (n : Nat) (c : Char)
    (hc : c ∈ (natDigitsRev n).reverse) : c.isDigit = true :=
  natDigitsRevFuel_digits (n + 1) n c (List.mem_reverse.mp hc)

theorem natDigitsRev_ne_nil (n : Nat) : natDigitsRev n ≠ [] :=
  natDigitsRevFuel_ne_nil n

theorem parseIntegerLiteral_natToDecString (n : Nat) :
    parseIntegerLiteral (natToDecString n) = some (n : Int) := by
  have htl : (natToDecString n).toList = (natDigitsRev n).reverse := rfl
  cases hcs : (natDigitsRev n).reverse with
  | nil =>
    exact absurd (List.reverse_eq_nil_iff.mp hcs) (natDigitsRev_ne_nil n)
  | cons c restc =>
    have hdig : ∀ x ∈ c :: restc, x.isDigit = true := by
      rw [← hcs]
      exact fun x hx => natDigitsRev_reverse_digits n x hx
    have hcd : c.isDigit = true := hdig c (by simp)
    unfold parseIntegerLiteral
    rw [htl, hcs]
    dsimp only
    rw [if_neg (by
      intro hc
      rw [hc] at hcd
      exact absurd hcd (by decide))]
    rw [if_neg (by
      rintro ⟨_, hx⟩
      have : ('x' : Char).isDigit = true :=
        hdig 'x' (List.mem_cons.mpr (Or.inr (List.mem_of_mem_head? hx)))
      exact absurd this (by decide))]
    rw [show parseDecNat (c :: restc) = some n from by
      rw [← hcs]; exact parseDecNat_natDigitsRev n]
    rfl

theorem parseIntegerLiteral_intToDecString (v : Int) :
    parseIntegerLiteral (intToDecString v) = some v := by
  by_cases hv : v < 0
  · rw [show intToDecString v = "-" ++ natToDecString v.natAbs from by
      unfold intToDecString; rw [if_pos hv]]
    unfold parseIntegerLiteral
    rw [show ("-" ++ natToDecString v.natAbs).toList
        = '-' :: (natDigitsRev v.natAbs).reverse from rfl]
    dsimp only
    rw [if_pos rfl, parseDecNat_natDigitsRev]
    show some (-(v.natAbs : Int)) = some v
    rw [show (-(v.natAbs : Int)) = v from by omega]
  · rw [show intToDecString v = natToDecString v.toNat from by
      unfold intToDecString; rw [if_neg hv]]
    rw [parseIntegerLiteral_natToDecString]
    congr 1
    omega

/-- **C9** (confirmed; the integer branch of `ABIParser.validateInput` is
modelled from the spec, `abiParser.ts` not being among the given sources).
For every integer `v` and declared width: if `v` is within the representable
range of `uintN`/`intN`, validating the decimal rendering of `v` returns
valid with `parsed` equal to `v` exactly, as an unbounded integer — including
for `v` exceeding `2^53`; if `v` is outside the representable range, the
validation returns invalid. -/
theorem claim9_integer_validation (signed : Bool) (bits : Nat) (v : Int) :
    (inIntRange signed bits v = true →
      validateIntegerInput signed bits (intToDecString v) = some v)
    ∧ (inIntRange signed bits v = false →
      validateIntegerInput signed bits (intToDecString v) = none) := by
  have hp := parseIntegerLiteral_intToDecString v
  constructor <;> intro h <;> simp [validateIntegerInput, hp, h]

/-- **C9 witness**: `2^60` (beyond `2^53`) validates exactly under
`uint256`, and `256` is rejected by `uint8`. -/
theorem claim9_integer_validation_witness :
    inIntRange false 256 (2 ^ 60) = true
    ∧ validateIntegerInput false 256 (intToDecString (2 ^ 60))
        = some (2 ^ 60)
    ∧ inIntRange false 8 256 = false
    ∧ validateIntegerInput false 8 (intToDecString 256) = none :=
  ⟨by decide,
   (claim9_integer_validation false 256 (2 ^ 60)).1 (by decide),
   by decide,
   (claim9_integer_validation false 8 256).2 (by decide)⟩

end QIPs
